import Mathlib

/-!
Shallow embedding of `src/HSTB/drivers/caris_finder.py`.

The module locates installed CARIS product versions by probing the Windows
registry (`HKEY_LOCAL_MACHINE\SOFTWARE\CARIS\<app_key>\<version>\Environment
Variables`, value `install_dir`) and checking that the executable
`<install_dir>\<subdir>\<exe_name>` exists on disk.

The external world (registry + filesystem) is modelled by an explicit `Env`:
`ConnectRegistry` either succeeds (`connectOK = true`) or raises a
`WindowsError`; the combined `OpenKey` / `QueryValueEx "install_dir"` probe for
one registry key path either yields the install directory string or raises a
`WindowsError` (modelled by `Option`); `os.path.exists` is a boolean oracle on
path strings.  Python exceptions escaping a function are modelled with
`Except PyError`.
-/

/-- Python exceptions that can escape the functions of the module:
`WindowsError` (registry access failure), `ValueError` (from `float()` on an
unparseable string), and a generic `Exception` carrying its message. -/
inductive PyError where
  | windowsError : PyError
  | valueError : PyError
  | exception : String → PyError
deriving DecidableEq, Repr

/-- The external environment: the Windows registry and the filesystem.
`connectOK` tells whether `ConnectRegistry(None, HKEY_LOCAL_MACHINE)` succeeds;
`install_dir p` is the result of `QueryValueEx(OpenKey(regHKLM, p), "install_dir")[0]`
(`none` models a `WindowsError` raised at either step: missing key, missing
value, access denied); `path_exists` is `os.path.exists`. -/
structure Env where
  connectOK : Bool
  install_dir : String → Option String
  path_exists : String → Bool

/-- `os.sep` on Windows. -/
def os_sep : String := "\\"

/-- The registry key path `os.sep.join(('SOFTWARE', 'CARIS', app_key, vHIPS, 'Environment Variables'))`. -/
def registry_path (app_key vHIPS : String) : String :=
  String.intercalate os_sep ["SOFTWARE", "CARIS", app_key, vHIPS, "Environment Variables"]

/-- `os.path.join(p2hipsinst, subdir, exe_name)` in the common case of
relative `subdir` and `exe_name` components (the only case arising here):
the parts joined by the separator. -/
def os_path_join (p2hipsinst subdir exe_name : String) : String :=
  p2hipsinst ++ os_sep ++ subdir ++ os_sep ++ exe_name

/-- Value of a list of decimal digit characters read in base 10. -/
def digitsVal (cs : List Char) : Nat :=
  cs.foldl (fun a c => a * 10 + (c.toNat - 48)) 0

/-- Parsing stage of Python `float()` on a version string: the sign, the value
of all digits read as one integer, and the number of digits after the decimal
point, for optionally signed simple decimal literals (`"11"`, `"11.4"`,
`"11."`, `".4"`), the forms version strings can take here; `none` models a
`ValueError` (e.g. on `"11.4.1"`, which has two dots).  Scientific notation,
infinities, NaN, underscores and surrounding whitespace are accepted by
Python's `float` but never arise here and are not modelled. -/
def pyFloatParts (s : String) : Option (Int × Nat × Nat) :=
  let cs := s.toList
  let signAndRest : Int × List Char :=
    match cs with
    | '-' :: rest => (-1, rest)
    | '+' :: rest => (1, rest)
    | _ => (1, cs)
  let sign := signAndRest.1
  let body := signAndRest.2
  let intDigits := body.takeWhile Char.isDigit
  let afterInt := body.drop intDigits.length
  match afterInt with
  | [] =>
    if intDigits.isEmpty then none
    else some (sign, digitsVal intDigits, 0)
  | '.' :: afterDot =>
    let fracDigits := afterDot.takeWhile Char.isDigit
    let afterFrac := afterDot.drop fracDigits.length
    if afterFrac = [] ∧ (intDigits ≠ [] ∨ fracDigits ≠ []) then
      some (sign, digitsVal (intDigits ++ fracDigits), fracDigits.length)
    else none
  | _ => none

/-- Python `float()` applied to a version string: the exact rational value of
the parsed decimal literal, `none` modelling a `ValueError`. -/
def pyFloat (s : String) : Option Rat :=
  (pyFloatParts s).map (fun t => (t.1 : Rat) * (t.2.1 : Rat) / (10 : Rat) ^ t.2.2)

/-- The `for vHIPS in accepted_versions` loop of `caris_command_finder`,
returning the accumulated `versions` list.  Each iteration: probe the registry
for `install_dir` (a raised `WindowsError` is caught by the `except` clause:
skip to the next version), build `batch_engine`, skip if it does not exist on
disk, convert the version string with `float` (whose `ValueError` is NOT
caught by `except WindowsError` and escapes), record the match, and stop after
the first match unless `get_all` is set. -/
def caris_find_loop (env : Env) (exe_name app_key subdir : String) (get_all : Bool) :
    List String → Except PyError (List (String × Rat))
  | [] => .ok []
  | vHIPS :: rest =>
    match env.install_dir (registry_path app_key vHIPS) with
    | none => caris_find_loop env exe_name app_key subdir get_all rest
    | some p2hipsinst =>
      let batch_engine := os_path_join p2hipsinst subdir exe_name
      if env.path_exists batch_engine = true then
        match pyFloat vHIPS with
        | none => .error .valueError
        | some vers =>
          if get_all then
            match caris_find_loop env exe_name app_key subdir get_all rest with
            | .error e => .error e
            | .ok ms => .ok ((batch_engine, vers) :: ms)
          else .ok [(batch_engine, vers)]
      else caris_find_loop env exe_name app_key subdir get_all rest

/-- Result of `caris_command_finder`: `first o` is the `get_all_versions=False`
shape, where `first none` models the Python no-match return value `('', '')`
and `first (some (p, v))` models `versions[0] = [p, v]`; `all ms` is the
`get_all_versions=True` shape, the full `versions` list. -/
inductive CarisResult where
  | first : Option (String × Rat) → CarisResult
  | all : List (String × Rat) → CarisResult
deriving DecidableEq, Repr

/-- `caris_command_finder(exe_name, accepted_versions, app_key, get_all_versions, subdir)`:
connect to HKLM (a failure propagates), run the search loop, and return either
the whole `versions` list or `versions[0] if versions else ('', '')`. -/
def caris_command_finder (env : Env) (exe_name : String) (accepted_versions : List String)
    (app_key : String) (get_all_versions : Bool) (subdir : String) :
    Except PyError CarisResult :=
  if env.connectOK = true then
    match caris_find_loop env exe_name app_key subdir get_all_versions accepted_versions with
    | .error e => .error e
    | .ok versions =>
      if get_all_versions then .ok (.all versions)
      else .ok (.first versions.head?)
  else .error .windowsError

/-- `caris_command_finder` specialised to `get_all_versions=False`, the mode
used by `get_hips_command_from_version`; it returns `versions.head?` directly
(`none` models `('', '')`). -/
def caris_command_finder_first (env : Env) (exe_name : String) (accepted_versions : List String)
    (app_key subdir : String) : Except PyError (Option (String × Rat)) :=
  if env.connectOK = true then
    match caris_find_loop env exe_name app_key subdir false accepted_versions with
    | .error e => .error e
    | .ok versions => .ok versions.head?
  else .error .windowsError

def HIPS_NAME : String := "HIPS"

def HIPS_VERSIONS : List String :=
  ["12.0", "11.4", "11.3", "11.2", "11.1", "10.4", "10.3", "10.2"]

def BASE_EDITOR_NAME : String := "BASE Editor"

def BASE_EDITOR_VERSIONS : List String :=
  ["6.1", "5.5", "5.4", "5.3", "5.2", "5.1", "4.4", "4.3", "4.2"]

/-- The message `"No Batch Engine found...is CARIS HIPS and SIPS {} installed?".format(v)`
of `get_hips_command_from_version`, as a function of the string interpolated
into the placeholder. -/
def no_batch_vers_msg (v : String) : String :=
  "No Batch Engine found...is CARIS HIPS and SIPS " ++ v ++ " installed?"

/-- `get_hips_command_from_version(vers)` for a string argument (for which
Python's `str(vers)` is the identity).  The Python line
`batch_engine, vers = caris_command_finder('carisbatch.exe', (str(vers),), "HIPS")`
REBINDS `vers` to the second component of the returned pair before the error
message is formatted: on no match that component is the empty string `''`,
so the formatted message interpolates `""`, not the requested version.  The
`some` branch with an empty `batch_engine` is dead code (a constructed path
always contains separators, see `os_path_join_ne_empty`); there the rebound
`vers` is a float and `toString` stands in for Python's rendering of it. -/
def get_hips_command_from_version (env : Env) (vers : String) : Except PyError String :=
  match caris_command_finder_first env "carisbatch.exe" [vers] HIPS_NAME "bin" with
  | .error e => .error e
  | .ok none => .error (.exception (no_batch_vers_msg ""))
  | .ok (some (batch_engine, v)) =>
    if batch_engine = "" then .error (.exception (no_batch_vers_msg (toString v)))
    else .ok batch_engine

/-- The Python test `not versions or not versions[0]` of `command_finder_hips`
and `command_finder_base` applied to the result of `caris_command_finder`:
an empty list or a pair `('', '')` is empty-falsy; a pair `[p, v]` is falsy
iff `p` is the empty string; a nonempty list of matches is truthy (its first
element `versions[0]` is a two-element list, hence truthy). -/
def pyFalsyResult : CarisResult → Bool
  | .first none => true
  | .first (some (p, _)) => p == ""
  | .all [] => true
  | .all (_ :: _) => false

/-- The shared `if not versions or not versions[0]: raise Exception(msg)` check
inlined in both family wrappers. -/
def raise_if_not_found (msg : String) : Except PyError CarisResult → Except PyError CarisResult
  | .error e => .error e
  | .ok versions => if pyFalsyResult versions = true then .error (.exception msg) else .ok versions

def HIPS_NOT_FOUND_MSG : String :=
  "No Batch Engine found...is CARIS HIPS and SIPS installed?"

def BASE_NOT_FOUND_MSG : String :=
  "No Batch Engine found...is CARIS BASE Editor installed?"

/-- `command_finder_hips(get_all_versions)`. -/
def command_finder_hips (env : Env) (get_all_versions : Bool) : Except PyError CarisResult :=
  raise_if_not_found HIPS_NOT_FOUND_MSG
    (caris_command_finder env "carisbatch.exe" HIPS_VERSIONS HIPS_NAME get_all_versions "bin")

/-- `command_finder_base(get_all_versions)`. -/
def command_finder_base (env : Env) (get_all_versions : Bool) : Except PyError CarisResult :=
  raise_if_not_found BASE_NOT_FOUND_MSG
    (caris_command_finder env "carisbatch.exe" BASE_EDITOR_VERSIONS BASE_EDITOR_NAME
      get_all_versions "bin")

/-- `get_all_hips_versions()`. -/
def get_all_hips_versions (env : Env) : Except PyError CarisResult :=
  command_finder_hips env true

/-- Whether a version string resolves in `env`: the registry probe yields an
install directory and the constructed executable path exists on disk. -/
def resolves (env : Env) (exe_name app_key subdir v : String) : Bool :=
  match env.install_dir (registry_path app_key v) with
  | none => false
  | some d => env.path_exists (os_path_join d subdir exe_name)

/-- The match one version string contributes in `env`, if any: the constructed
path paired with the parsed version value, when the version resolves and its
string parses. -/
def resolvedMatch (env : Env) (exe_name app_key subdir v : String) : Option (String × Rat) :=
  match env.install_dir (registry_path app_key v) with
  | none => none
  | some d =>
    if env.path_exists (os_path_join d subdir exe_name) = true then
      (pyFloat v).map (fun q => (os_path_join d subdir exe_name, q))
    else none

/-- Executable test that one character list starts with another. -/
def charsStartWith : List Char → List Char → Bool
  | [], _ => true
  | _ :: _, [] => false
  | a :: pat, b :: rest => a == b && charsStartWith pat rest

/-- Executable test that a character list occurs contiguously inside another. -/
def charsInfixOf (pat : List Char) : List Char → Bool
  | [] => charsStartWith pat []
  | b :: rest => charsStartWith pat (b :: rest) || charsInfixOf pat rest

/-- Substring test (`pat in s` in Python terms), used to state that an error
message carries a product name or version. -/
def containsStr (s pat : String) : Bool :=
  charsInfixOf pat.toList s.toList

/-- An environment in which the registry connects but no probe succeeds. -/
def envNone : Env :=
  { connectOK := true
    install_dir := fun _ => none
    path_exists := fun _ => false }

/-- An environment with the registry connected and HIPS versions 11.4 and
10.2 both installed with existing executables. -/
def envDemo : Env :=
  { connectOK := true
    install_dir := fun p =>
      if p = registry_path "HIPS" "11.4" then some "C:\\CARIS\\HIPS114"
      else if p = registry_path "HIPS" "10.2" then some "C:\\CARIS\\HIPS102"
      else none
    path_exists := fun p =>
      p == os_path_join "C:\\CARIS\\HIPS114" "bin" "carisbatch.exe" ||
      p == os_path_join "C:\\CARIS\\HIPS102" "bin" "carisbatch.exe" }

/-- An environment in which connecting to the registry itself fails. -/
def envDown : Env :=
  { connectOK := false
    install_dir := fun _ => none
    path_exists := fun _ => false }

/-- An environment in which the unparseable version string "11.4.1" is
registered for HIPS with an existing executable. -/
def envBad : Env :=
  { connectOK := true
    install_dir := fun p =>
      if p = registry_path "HIPS" "11.4.1" then some "C:\\CARIS\\HIPSX" else none
    path_exists := fun p =>
      p == os_path_join "C:\\CARIS\\HIPSX" "bin" "carisbatch.exe" }

lemma os_path_join_ne_empty (a b c : String) : os_path_join a b c ≠ "" := by
  intro h
  have hlen := congrArg String.length h
  simp only [os_path_join, os_sep, String.length_append] at hlen
  have h1 : ("\\" : String).length = 1 := rfl
  have h0 : ("" : String).length = 0 := rfl
  rw [h1, h0] at hlen
  omega

lemma caris_find_loop_sound (env : Env) (e k s : String) (g : Bool) :
    ∀ (vs : List String) (ms : List (String × Rat)),
      caris_find_loop env e k s g vs = .ok ms →
      ∀ m ∈ ms, env.path_exists m.1 = true ∧ m.1 ≠ "" := by
  intro vs
  induction vs with
  | nil =>
    intro ms hok m hm
    simp [caris_find_loop] at hok
    subst hok
    simp at hm
  | cons v rest ih =>
    intro ms hok m hm
    rw [caris_find_loop] at hok
    cases hd : env.install_dir (registry_path k v) with
    | none =>
      rw [hd] at hok
      exact ih ms hok m hm
    | some d =>
      rw [hd] at hok
      simp only at hok
      cases hex : env.path_exists (os_path_join d s e) with
      | false =>
        rw [hex] at hok
        simp at hok
        exact ih ms hok m hm
      | true =>
        rw [hex] at hok
        simp only [if_pos rfl] at hok
        cases hq : pyFloat v with
        | none =>
          rw [hq] at hok
          simp at hok
        | some q =>
          rw [hq] at hok
          simp only at hok
          cases g with
          | false =>
            simp at hok
            subst hok
            simp at hm
            subst hm
            exact ⟨hex, os_path_join_ne_empty d s e⟩
          | true =>
            simp only [if_pos rfl] at hok
            cases hrec : caris_find_loop env e k s true rest with
            | error ev => rw [hrec] at hok; simp at hok
            | ok ms2 =>
              rw [hrec] at hok
              simp at hok
              subst hok
              rcases List.mem_cons.mp hm with hm1 | hm2
              · subst hm1
                exact ⟨hex, os_path_join_ne_empty d s e⟩
              · exact ih ms2 hrec m hm2

lemma caris_find_loop_skip_unresolved (env : Env) (e k s : String) (g : Bool) :
    ∀ (pre rest : List String), (∀ u ∈ pre, resolves env e k s u = false) →
      caris_find_loop env e k s g (pre ++ rest) = caris_find_loop env e k s g rest := by
  intro pre
  induction pre with
  | nil => intro rest _; rfl
  | cons u pre ih =>
    intro rest hres
    have hu : resolves env e k s u = false := hres u (List.mem_cons_self u pre)
    have hpre : ∀ w ∈ pre, resolves env e k s w = false :=
      fun w hw => hres w (List.mem_cons_of_mem u hw)
    rw [List.cons_append, caris_find_loop]
    cases hd : env.install_dir (registry_path k u) with
    | none => exact ih rest hpre
    | some d =>
      have hex : env.path_exists (os_path_join d s e) = false := by
        rw [resolves, hd] at hu
        exact hu
      simp only [hex, Bool.false_eq_true, if_false]
      exact ih rest hpre

lemma caris_find_loop_skip_none (env : Env) (e k s : String) (g : Bool) (v : String)
    (hv : env.install_dir (registry_path k v) = none) :
    ∀ (l1 l2 : List String),
      caris_find_loop env e k s g (l1 ++ v :: l2) = caris_find_loop env e k s g (l1 ++ l2) := by
  intro l1
  induction l1 with
  | nil =>
    intro l2
    rw [List.nil_append, List.nil_append, caris_find_loop, hv]
  | cons u l1 ih =>
    intro l2
    rw [List.cons_append, List.cons_append, caris_find_loop, caris_find_loop]
    cases hd : env.install_dir (registry_path k u) with
    | none => exact ih l2
    | some d =>
      simp only
      cases hex : env.path_exists (os_path_join d s e) with
      | false => simp only [Bool.false_eq_true, if_false]; exact ih l2
      | true =>
        simp only [if_pos rfl]
        cases hq : pyFloat u with
        | none => rfl
        | some q =>
          simp only
          cases g with
          | false => rfl
          | true => simp only [if_pos rfl, ih l2]

lemma caris_find_loop_first_hit (env : Env) (e k s v : String) (rest : List String)
    (d : String) (q : Rat)
    (hd : env.install_dir (registry_path k v) = some d)
    (hex : env.path_exists (os_path_join d s e) = true)
    (hq : pyFloat v = some q) :
    caris_find_loop env e k s false (v :: rest) = .ok [(os_path_join d s e, q)] := by
  rw [caris_find_loop, hd]
  simp [hex, hq]

lemma caris_find_loop_all_eq (env : Env) (e k s : String) :
    ∀ (vs : List String), (∀ v ∈ vs, resolves env e k s v = true → (pyFloat v).isSome) →
      caris_find_loop env e k s true vs = .ok (vs.filterMap (resolvedMatch env e k s)) := by
  intro vs
  induction vs with
  | nil => intro _; rfl
  | cons v rest ih =>
    intro hparse
    have hrest : ∀ w ∈ rest, resolves env e k s w = true → (pyFloat w).isSome :=
      fun w hw => hparse w (List.mem_cons_of_mem v hw)
    rw [caris_find_loop, List.filterMap_cons]
    cases hd : env.install_dir (registry_path k v) with
    | none =>
      have hm : resolvedMatch env e k s v = none := by rw [resolvedMatch, hd]
      rw [hm]
      exact ih hrest
    | some d =>
      simp only
      cases hex : env.path_exists (os_path_join d s e) with
      | false =>
        have hm : resolvedMatch env e k s v = none := by
          rw [resolvedMatch, hd]
          simp [hex]
        rw [hm]
        simp only [Bool.false_eq_true, if_false]
        exact ih hrest
      | true =>
        have hres : resolves env e k s v = true := by rw [resolves, hd]; exact hex
        have hsome := hparse v (List.mem_cons_self v rest) hres
        rcases Option.isSome_iff_exists.mp hsome with ⟨q, hq⟩
        have hm : resolvedMatch env e k s v = some (os_path_join d s e, q) := by
          rw [resolvedMatch, hd]
          simp [hex, hq]
        rw [hm]
        simp [hex, hq, ih hrest]

lemma caris_find_loop_ok (env : Env) (e k s : String) (g : Bool) :
    ∀ (vs : List String), (∀ v ∈ vs, resolves env e k s v = true → (pyFloat v).isSome) →
      ∃ ms, caris_find_loop env e k s g vs = .ok ms := by
  intro vs
  induction vs with
  | nil => intro _; exact ⟨[], rfl⟩
  | cons v rest ih =>
    intro hparse
    have hrest : ∀ w ∈ rest, resolves env e k s w = true → (pyFloat w).isSome :=
      fun w hw => hparse w (List.mem_cons_of_mem v hw)
    rcases ih hrest with ⟨ms, hms⟩
    cases hd : env.install_dir (registry_path k v) with
    | none =>
      refine ⟨ms, ?_⟩
      rw [caris_find_loop, hd]
      exact hms
    | some d =>
      cases hex : env.path_exists (os_path_join d s e) with
      | false =>
        refine ⟨ms, ?_⟩
        rw [caris_find_loop, hd]
        simp [hex, hms]
      | true =>
        have hres : resolves env e k s v = true := by rw [resolves, hd]; exact hex
        have hsome := hparse v (List.mem_cons_self v rest) hres
        rcases Option.isSome_iff_exists.mp hsome with ⟨q, hq⟩
        cases g with
        | false =>
          refine ⟨[(os_path_join d s e, q)], ?_⟩
          rw [caris_find_loop, hd]
          simp [hex, hq]
        | true =>
          refine ⟨(os_path_join d s e, q) :: ms, ?_⟩
          rw [caris_find_loop, hd]
          simp [hex, hq, hms]

lemma caris_find_loop_ne_nil (env : Env) (e k s : String) (g : Bool) :
    ∀ (vs : List String), (∀ v ∈ vs, resolves env e k s v = true → (pyFloat v).isSome) →
      (∃ v ∈ vs, resolves env e k s v = true) →
      ∃ ms, caris_find_loop env e k s g vs = .ok ms ∧ ms ≠ [] := by
  intro vs
  induction vs with
  | nil =>
    intro _ hex
    simp at hex
  | cons v rest ih =>
    intro hparse hex
    have hrest : ∀ w ∈ rest, resolves env e k s w = true → (pyFloat w).isSome :=
      fun w hw => hparse w (List.mem_cons_of_mem v hw)
    cases hres : resolves env e k s v with
    | true =>
      rcases Option.isSome_iff_exists.mp (hparse v (List.mem_cons_self v rest) hres) with ⟨q, hq⟩
      rw [resolves] at hres
      cases hd : env.install_dir (registry_path k v) with
      | none => rw [hd] at hres; simp at hres
      | some d =>
        rw [hd] at hres
        have hres2 : env.path_exists (os_path_join d s e) = true := hres
        cases g with
        | false =>
          refine ⟨[(os_path_join d s e, q)], ?_, by simp⟩
          rw [caris_find_loop, hd]
          simp [hres2, hq]
        | true =>
          rcases caris_find_loop_ok env e k s true rest hrest with ⟨ms, hms⟩
          refine ⟨(os_path_join d s e, q) :: ms, ?_, by simp⟩
          rw [caris_find_loop, hd]
          simp [hres2, hq, hms]
    | false =>
      have hex2 : ∃ w ∈ rest, resolves env e k s w = true := by
        rcases hex with ⟨w, hw, hwres⟩
        rcases List.mem_cons.mp hw with h1 | h2
        · subst h1; rw [hres] at hwres; cases hwres
        · exact ⟨w, h2, hwres⟩
      have hskip := caris_find_loop_skip_unresolved env e k s g [v] rest
        (by intro u hu; simp at hu; subst hu; exact hres)
      rw [List.singleton_append] at hskip
      rw [hskip]
      exact ih hrest hex2

lemma caris_find_loop_error_val (env : Env) (e k s : String) (g : Bool) :
    ∀ (vs : List String) (ev : PyError),
      caris_find_loop env e k s g vs = .error ev → ev = .valueError := by
  intro vs
  induction vs with
  | nil => intro ev h; simp [caris_find_loop] at h
  | cons v rest ih =>
    intro ev h
    rw [caris_find_loop] at h
    cases hd : env.install_dir (registry_path k v) with
    | none => rw [hd] at h; exact ih ev h
    | some d =>
      rw [hd] at h
      simp only at h
      cases hex : env.path_exists (os_path_join d s e) with
      | false =>
        rw [hex] at h
        simp at h
        exact ih ev h
      | true =>
        rw [hex] at h
        simp only [if_pos rfl] at h
        cases hq : pyFloat v with
        | none => rw [hq] at h; simp at h; exact h.symm
        | some q =>
          rw [hq] at h
          simp only at h
          cases g with
          | false => simp at h
          | true =>
            simp only [if_pos rfl] at h
            cases hrec : caris_find_loop env e k s true rest with
            | error ev2 =>
              rw [hrec] at h
              simp at h
              subst h
              exact ih ev2 hrec
            | ok ms => rw [hrec] at h; simp at h

lemma caris_command_finder_error_cases (env : Env) (e : String) (a : List String)
    (k : String) (g : Bool) (s : String) (ev : PyError) :
    caris_command_finder env e a k g s = .error ev →
    ev = .windowsError ∨ ev = .valueError := by
  intro h
  rw [caris_command_finder] at h
  by_cases hc : env.connectOK = true
  · rw [if_pos hc] at h
    cases hloop : caris_find_loop env e k s g a with
    | error ev2 =>
      rw [hloop] at h
      simp at h
      subst h
      exact Or.inr (caris_find_loop_error_val env e k s g a ev2 hloop)
    | ok ms =>
      rw [hloop] at h
      cases g with
      | false => simp at h
      | true => simp at h
  · rw [if_neg hc] at h
    simp at h
    exact Or.inl h.symm

lemma resolvedMatch_eq_none (env : Env) (e k s u : String)
    (h : resolves env e k s u = false) : resolvedMatch env e k s u = none := by
  rw [resolves] at h
  rw [resolvedMatch]
  cases hd : env.install_dir (registry_path k u) with
  | none => rfl
  | some d =>
    rw [hd] at h
    have h2 : env.path_exists (os_path_join d s e) = false := h
    simp [h2]

lemma resolvedMatch_eq_some (env : Env) (e k s v d : String) (q : Rat)
    (hd : env.install_dir (registry_path k v) = some d)
    (hex : env.path_exists (os_path_join d s e) = true)
    (hq : pyFloat v = some q) :
    resolvedMatch env e k s v = some (os_path_join d s e, q) := by
  rw [resolvedMatch, hd]
  simp [hex, hq]

lemma pyFloat_11_4 : pyFloat "11.4" = some (11.4 : Rat) := by
  have h : pyFloatParts "11.4" = some (1, 114, 1) := by decide
  simp [pyFloat, h]
  norm_num

lemma pyFloat_10_2 : pyFloat "10.2" = some (10.2 : Rat) := by
  have h : pyFloatParts "10.2" = some (1, 102, 1) := by decide
  simp [pyFloat, h]
  norm_num

lemma pyFloat_11_4_1 : pyFloat "11.4.1" = none := by
  have h : pyFloatParts "11.4.1" = none := by decide
  simp [pyFloat, h]

lemma caris_command_finder_ok_falsy (env : Env) (e : String) (a : List String)
    (k : String) (g : Bool) (s : String) (r : CarisResult)
    (hok : caris_command_finder env e a k g s = .ok r)
    (hfal : pyFalsyResult r = true) :
    r = .all [] ∨ r = .first none := by
  rw [caris_command_finder] at hok
  by_cases hc : env.connectOK = true
  · rw [if_pos hc] at hok
    cases hloop : caris_find_loop env e k s g a with
    | error ev => rw [hloop] at hok; simp at hok
    | ok ms =>
      rw [hloop] at hok
      cases g with
      | true =>
        simp at hok
        subst hok
        cases ms with
        | nil => exact Or.inl rfl
        | cons m t => simp [pyFalsyResult] at hfal
      | false =>
        simp at hok
        subst hok
        cases ms with
        | nil => exact Or.inr rfl
        | cons m t =>
          rcases m with ⟨p, q⟩
          have hne : p ≠ "" :=
            (caris_find_loop_sound env e k s false a ((p, q) :: t) hloop (p, q)
              (List.mem_cons_self _ _)).2
          rw [List.head?_cons] at hfal
          simp only [pyFalsyResult] at hfal
          exact absurd (eq_of_beq hfal) hne
  · rw [if_neg hc] at hok
    simp at hok

/-- The common behaviour of `command_finder_hips` and `command_finder_base`:
how `raise_if_not_found msg` treats the resolver's output. -/
lemma wrapper_spec (env : Env) (g : Bool) (exe key msg : String) (vlist : List String)
    (hparse : ∀ v ∈ vlist, (pyFloat v).isSome) :
    ((raise_if_not_found msg (caris_command_finder env exe vlist key g "bin") =
        .error (.exception msg)) ↔
      (caris_command_finder env exe vlist key g "bin" = .ok (.all []) ∨
       caris_command_finder env exe vlist key g "bin" = .ok (.first none)))
    ∧ (∀ r, caris_command_finder env exe vlist key g "bin" = .ok r →
        r ≠ .all [] → r ≠ .first none →
        raise_if_not_found msg (caris_command_finder env exe vlist key g "bin") = .ok r)
    ∧ (env.connectOK = true →
        (∃ v ∈ vlist, resolves env exe key "bin" v = true) →
        ∃ r, raise_if_not_found msg (caris_command_finder env exe vlist key g "bin") = .ok r) := by
  refine ⟨?_, ?_, ?_⟩
  · constructor
    · intro hw
      cases hres : caris_command_finder env exe vlist key g "bin" with
      | error ev =>
        rw [hres, raise_if_not_found] at hw
        simp at hw
        rcases caris_command_finder_error_cases env exe vlist key g "bin" ev hres with h1 | h1 <;>
          (rw [h1] at hw; cases hw)
      | ok r =>
        rw [hres, raise_if_not_found] at hw
        cases hfal : pyFalsyResult r with
        | false => rw [hfal] at hw; simp at hw
        | true =>
          rcases caris_command_finder_ok_falsy env exe vlist key g "bin" r hres hfal with h1 | h1
          · exact Or.inl (by rw [h1])
          · exact Or.inr (by rw [h1])
    · intro hres
      rcases hres with h1 | h1 <;> rw [h1, raise_if_not_found] <;> rfl
  · intro r hok h1 h2
    have hfal : pyFalsyResult r = false := by
      cases hfal : pyFalsyResult r with
      | false => rfl
      | true =>
        rcases caris_command_finder_ok_falsy env exe vlist key g "bin" r hok hfal with h | h
        · exact absurd h h1
        · exact absurd h h2
    rw [hok, raise_if_not_found, hfal]
    simp
  · intro hc hex
    have hparse2 : ∀ v ∈ vlist, resolves env exe key "bin" v = true → (pyFloat v).isSome :=
      fun v hv _ => hparse v hv
    rcases caris_find_loop_ne_nil env exe key "bin" g vlist hparse2 hex with ⟨ms, hms, hne⟩
    cases ms with
    | nil => exact absurd rfl hne
    | cons m t =>
      have hmne : m.1 ≠ "" :=
        (caris_find_loop_sound env exe key "bin" g vlist (m :: t) hms m
          (List.mem_cons_self _ _)).2
      cases g with
      | true =>
        refine ⟨.all (m :: t), ?_⟩
        have hok : caris_command_finder env exe vlist key true "bin" = .ok (.all (m :: t)) := by
          rw [caris_command_finder, if_pos hc, hms]
          rfl
        rw [hok, raise_if_not_found]
        simp [pyFalsyResult]
      | false =>
        rcases m with ⟨p, q⟩
        refine ⟨.first (some (p, q)), ?_⟩
        have hok : caris_command_finder env exe vlist key false "bin" =
            .ok (.first (some (p, q))) := by
          rw [caris_command_finder, if_pos hc, hms]
          rfl
        rw [hok, raise_if_not_found]
        have hfal : pyFalsyResult (.first (some (p, q))) = false := by
          simp only [pyFalsyResult]
          exact beq_eq_false_iff_ne.mpr hmne
        rw [hfal]
        simp

/-- C1: in first-match mode (`get_all_versions = false`), when the versions
before `v` in `accepted_versions` do not resolve, `v` resolves (registry node
with an `install_dir` and an existing executable, and its string parses), and
at least one later version also resolves, the resolver returns the match for
`v` — the version appearing earliest in the caller-supplied list — regardless
of the numeric ordering of the version values: the search probes versions
exactly in list order. -/
theorem first_match_honors_order (env : Env) (e k s : String)
    (pre post : List String) (v d : String) (q : Rat)
    (hc : env.connectOK = true)
    (hpre : ∀ u ∈ pre, resolves env e k s u = false)
    (hd : env.install_dir (registry_path k v) = some d)
    (hex : env.path_exists (os_path_join d s e) = true)
    (hq : pyFloat v = some q)
    (hpost : ∃ w ∈ post, resolves env e k s w = true) :
    caris_command_finder env e (pre ++ v :: post) k false s =
      .ok (.first (some (os_path_join d s e, q))) := by
  rw [caris_command_finder, if_pos hc,
    caris_find_loop_skip_unresolved env e k s false pre (v :: post) hpre,
    caris_find_loop_first_hit env e k s v post d q hd hex hq]
  rfl

/-- Witness for C1: in `envDemo` both "10.2" and "11.4" resolve; on the list
`["10.2", "11.4"]` first-match mode returns the 10.2 entry, not 11.4. -/
theorem first_match_honors_order_witness :
    caris_command_finder envDemo "carisbatch.exe" ["10.2", "11.4"] "HIPS" false "bin" =
      .ok (.first (some (os_path_join "C:\\CARIS\\HIPS102" "bin" "carisbatch.exe",
        (10.2 : Rat)))) :=
  first_match_honors_order envDemo "carisbatch.exe" "HIPS" "bin" [] ["11.4"]
    "10.2" "C:\\CARIS\\HIPS102" (10.2 : Rat) rfl (by simp) (by decide) (by decide)
    pyFloat_10_2 ⟨"11.4", by simp, by decide⟩

/-- C2: for a non-empty `accepted_versions` list in which no version resolves,
the resolver returns `first none` (modelling the pair `('', '')`) in
first-match mode and the empty list in collect-all mode. -/
theorem no_match_empty_results (env : Env) (e k s : String) (accepted : List String)
    (hne : accepted ≠ [])
    (hc : env.connectOK = true)
    (hall : ∀ u ∈ accepted, resolves env e k s u = false) :
    caris_command_finder env e accepted k false s = .ok (.first none) ∧
    caris_command_finder env e accepted k true s = .ok (.all []) := by
  have h1 : ∀ g : Bool, caris_find_loop env e k s g accepted = .ok [] := by
    intro g
    have h2 := caris_find_loop_skip_unresolved env e k s g accepted [] hall
    rw [List.append_nil] at h2
    rw [h2]
    rfl
  constructor
  · rw [caris_command_finder, if_pos hc, h1 false]
    rfl
  · rw [caris_command_finder, if_pos hc, h1 true]
    rfl

/-- Witness for C2: in `envNone` nothing resolves, so on `["12.0", "11.4"]`
first-match mode returns the empty placeholder and collect-all mode the empty
list. -/
theorem no_match_empty_results_witness :
    caris_command_finder envNone "carisbatch.exe" ["12.0", "11.4"] "HIPS" false "bin" =
      .ok (.first none) ∧
    caris_command_finder envNone "carisbatch.exe" ["12.0", "11.4"] "HIPS" true "bin" =
      .ok (.all []) :=
  no_match_empty_results envNone "carisbatch.exe" "HIPS" "bin" ["12.0", "11.4"]
    (by decide) rfl (by decide)

/-- C5: when exactly one version of `accepted_versions` resolves (its
neighbours before and after all fail to resolve), first-match mode and
collect-all mode return equivalent single-match information: the first-match
pair is the sole element of the collect-all list. -/
theorem single_match_modes_agree (env : Env) (e k s : String)
    (pre post : List String) (v : String)
    (hc : env.connectOK = true)
    (hpre : ∀ u ∈ pre, resolves env e k s u = false)
    (hpost : ∀ u ∈ post, resolves env e k s u = false)
    (hres : resolves env e k s v = true)
    (q : Rat) (hq : pyFloat v = some q) :
    ∃ m, caris_command_finder env e (pre ++ v :: post) k false s = .ok (.first (some m)) ∧
      caris_command_finder env e (pre ++ v :: post) k true s = .ok (.all [m]) := by
  have hres2 := hres
  rw [resolves] at hres2
  cases hd : env.install_dir (registry_path k v) with
  | none => rw [hd] at hres2; simp at hres2
  | some d =>
    rw [hd] at hres2
    have hex : env.path_exists (os_path_join d s e) = true := hres2
    refine ⟨(os_path_join d s e, q), ?_, ?_⟩
    · rw [caris_command_finder, if_pos hc,
        caris_find_loop_skip_unresolved env e k s false pre (v :: post) hpre,
        caris_find_loop_first_hit env e k s v post d q hd hex hq]
      rfl
    · have hparse : ∀ u ∈ pre ++ v :: post, resolves env e k s u = true → (pyFloat u).isSome := by
        intro u hu hres3
        rcases List.mem_append.mp hu with h1 | h1
        · rw [hpre u h1] at hres3; cases hres3
        · rcases List.mem_cons.mp h1 with h2 | h2
          · subst h2; rw [hq]; rfl
          · rw [hpost u h2] at hres3; cases hres3
      rw [caris_command_finder, if_pos hc,
        caris_find_loop_all_eq env e k s (pre ++ v :: post) hparse]
      have hnilpre : pre.filterMap (resolvedMatch env e k s) = [] :=
        List.filterMap_eq_nil_iff.mpr (fun u hu => resolvedMatch_eq_none env e k s u (hpre u hu))
      have hnilpost : post.filterMap (resolvedMatch env e k s) = [] :=
        List.filterMap_eq_nil_iff.mpr (fun u hu => resolvedMatch_eq_none env e k s u (hpost u hu))
      rw [List.filterMap_append, hnilpre,
        List.filterMap_cons_some (resolvedMatch_eq_some env e k s v d q hd hex hq),
        hnilpost]
      rfl

/-- Witness for C5: in `envDemo` with list `["12.0", "11.4"]` only "11.4"
resolves; both modes return the same single match. -/
theorem single_match_modes_agree_witness :
    ∃ m, caris_command_finder envDemo "carisbatch.exe" ["12.0", "11.4"] "HIPS" false "bin" =
        .ok (.first (some m)) ∧
      caris_command_finder envDemo "carisbatch.exe" ["12.0", "11.4"] "HIPS" true "bin" =
        .ok (.all [m]) :=
  single_match_modes_agree envDemo "carisbatch.exe" "HIPS" "bin" ["12.0"] [] "11.4"
    rfl (by decide) (by decide) (by decide) (11.4 : Rat) pyFloat_11_4

/-- C6: collect-all mode returns exactly the matches of the resolvable
versions as `accepted.filterMap (resolvedMatch …)`: the resolvable subsequence
in the same relative order as `accepted_versions`, with no reordering, no
duplication beyond the input, and no omissions other than the unresolvable
versions (stated for lists whose resolvable versions all parse; an
unparseable resolvable version raises instead, see C10). -/
theorem collect_all_exact_subsequence (env : Env) (e k s : String) (accepted : List String)
    (hc : env.connectOK = true)
    (hparse : ∀ v ∈ accepted, resolves env e k s v = true → (pyFloat v).isSome) :
    caris_command_finder env e accepted k true s =
      .ok (.all (accepted.filterMap (resolvedMatch env e k s))) := by
  rw [caris_command_finder, if_pos hc, caris_find_loop_all_eq env e k s accepted hparse]
  rfl

/-- Witness for C6: collect-all over `["12.0", "11.4", "10.2"]` in `envDemo`
is exactly the filterMap of the per-version matches. -/
theorem collect_all_exact_subsequence_witness :
    caris_command_finder envDemo "carisbatch.exe" ["12.0", "11.4", "10.2"] "HIPS" true "bin" =
      .ok (.all (["12.0", "11.4", "10.2"].filterMap
        (resolvedMatch envDemo "carisbatch.exe" "HIPS" "bin"))) :=
  collect_all_exact_subsequence envDemo "carisbatch.exe" "HIPS" "bin"
    ["12.0", "11.4", "10.2"] rfl (by decide)

/-- C7: every path returned by the resolver — the path of a first-match pair
or of any element of a collect-all list — passed the filesystem existence
check of the probe; no returned match carries a path that failed the check. -/
theorem returned_paths_checked (env : Env) (e k s : String) (a : List String) :
    (∀ p q, caris_command_finder env e a k false s = .ok (.first (some (p, q))) →
      env.path_exists p = true) ∧
    (∀ ms, caris_command_finder env e a k true s = .ok (.all ms) →
      ∀ m ∈ ms, env.path_exists m.1 = true) := by
  constructor
  · intro p q hok
    rw [caris_command_finder] at hok
    by_cases hc : env.connectOK = true
    · rw [if_pos hc] at hok
      cases hloop : caris_find_loop env e k s false a with
      | error ev => rw [hloop] at hok; simp at hok
      | ok ms =>
        rw [hloop] at hok
        simp at hok
        cases ms with
        | nil => simp at hok
        | cons m t =>
          rw [List.head?_cons] at hok
          have hm : m = (p, q) := by
            cases hok
            rfl
          subst hm
          exact (caris_find_loop_sound env e k s false a ((p, q) :: t) hloop (p, q)
            (List.mem_cons_self _ _)).1
    · rw [if_neg hc] at hok
      simp at hok
  · intro ms hok m hm
    rw [caris_command_finder] at hok
    by_cases hc : env.connectOK = true
    · rw [if_pos hc] at hok
      cases hloop : caris_find_loop env e k s true a with
      | error ev => rw [hloop] at hok; simp at hok
      | ok ms2 =>
        rw [hloop] at hok
        simp at hok
        exact (caris_find_loop_sound env e k s true a ms2 hloop m (by rw [hok]; exact hm)).1
    · rw [if_neg hc] at hok
      simp at hok

/-- Witness for C7: the path of the first match on `["10.2"]` in `envDemo`
passed the existence check. -/
theorem returned_paths_checked_witness :
    envDemo.path_exists (os_path_join "C:\\CARIS\\HIPS102" "bin" "carisbatch.exe") = true := by
  have hok : caris_command_finder envDemo "carisbatch.exe" ["10.2"] "HIPS" false "bin" =
      .ok (.first (some (os_path_join "C:\\CARIS\\HIPS102" "bin" "carisbatch.exe",
        (10.2 : Rat)))) := by
    rw [caris_command_finder, if_pos (show envDemo.connectOK = true from rfl),
      caris_find_loop_first_hit envDemo "carisbatch.exe" "HIPS" "bin" "10.2" []
        "C:\\CARIS\\HIPS102" (10.2 : Rat) (by decide) (by decide) pyFloat_10_2]
    rfl
  exact (returned_paths_checked envDemo "carisbatch.exe" "HIPS" "bin" ["10.2"]).1
    (os_path_join "C:\\CARIS\\HIPS102" "bin" "carisbatch.exe") (10.2 : Rat) hok

/-- C8: a failed connection to the registry is propagated unchanged to the
caller (as the `WindowsError`), while a registry failure during one version's
probe (missing subtree, missing `install_dir`, access denied — all modelled
by `install_dir = none`) is swallowed: the resolver behaves exactly as if
that version were absent from the list, and iteration continues with the
next candidate. -/
theorem connect_fatal_probe_swallowed (env : Env) (e k s : String) :
    (∀ (a : List String) (g : Bool), env.connectOK = false →
      caris_command_finder env e a k g s = .error .windowsError) ∧
    (∀ (v : String) (l1 l2 : List String) (g : Bool),
      env.install_dir (registry_path k v) = none →
      caris_command_finder env e (l1 ++ v :: l2) k g s =
        caris_command_finder env e (l1 ++ l2) k g s) := by
  constructor
  · intro a g hc
    rw [caris_command_finder]
    simp [hc]
  · intro v l1 l2 g hv
    rw [caris_command_finder, caris_command_finder,
      caris_find_loop_skip_none env e k s g v hv l1 l2]

/-- Witness for C8: with the registry down the resolver raises the
`WindowsError`, and in `envDemo` the probe failure on "9.9" makes the search
over `["12.0", "9.9", "10.2"]` behave exactly like the one over
`["12.0", "10.2"]`. -/
theorem connect_fatal_probe_swallowed_witness :
    caris_command_finder envDown "carisbatch.exe" ["11.4"] "HIPS" false "bin" =
      .error .windowsError ∧
    caris_command_finder envDemo "carisbatch.exe" ["12.0", "9.9", "10.2"] "HIPS" false "bin" =
      caris_command_finder envDemo "carisbatch.exe" ["12.0", "10.2"] "HIPS" false "bin" :=
  ⟨(connect_fatal_probe_swallowed envDown "carisbatch.exe" "HIPS" "bin").1 ["11.4"] false rfl,
   (connect_fatal_probe_swallowed envDemo "carisbatch.exe" "HIPS" "bin").2 "9.9"
     ["12.0"] ["10.2"] false (by decide)⟩

/-- C9: the version component recorded in a match is the version string
parsed as a decimal number: a resolvable "11.4" yields the value 11.4 and a
resolvable "10.2" yields 10.2 (and `pyFloat` maps those strings to those
numbers). -/
theorem version_value_is_decimal_parse (env : Env) (e k s d1 d2 : String)
    (hc : env.connectOK = true)
    (h1 : env.install_dir (registry_path k "11.4") = some d1)
    (h2 : env.path_exists (os_path_join d1 s e) = true)
    (h3 : env.install_dir (registry_path k "10.2") = some d2)
    (h4 : env.path_exists (os_path_join d2 s e) = true) :
    caris_command_finder env e ["11.4"] k false s =
      .ok (.first (some (os_path_join d1 s e, (11.4 : Rat)))) ∧
    caris_command_finder env e ["10.2"] k false s =
      .ok (.first (some (os_path_join d2 s e, (10.2 : Rat)))) ∧
    pyFloat "11.4" = some (11.4 : Rat) ∧ pyFloat "10.2" = some (10.2 : Rat) := by
  refine ⟨?_, ?_, pyFloat_11_4, pyFloat_10_2⟩
  · rw [caris_command_finder, if_pos hc,
      caris_find_loop_first_hit env e k s "11.4" [] d1 (11.4 : Rat) h1 h2 pyFloat_11_4]
    rfl
  · rw [caris_command_finder, if_pos hc,
      caris_find_loop_first_hit env e k s "10.2" [] d2 (10.2 : Rat) h3 h4 pyFloat_10_2]
    rfl

/-- Witness for C9: the concrete version values returned in `envDemo`. -/
theorem version_value_is_decimal_parse_witness :
    caris_command_finder envDemo "carisbatch.exe" ["11.4"] "HIPS" false "bin" =
      .ok (.first (some (os_path_join "C:\\CARIS\\HIPS114" "bin" "carisbatch.exe",
        (11.4 : Rat)))) ∧
    caris_command_finder envDemo "carisbatch.exe" ["10.2"] "HIPS" false "bin" =
      .ok (.first (some (os_path_join "C:\\CARIS\\HIPS102" "bin" "carisbatch.exe",
        (10.2 : Rat)))) ∧
    pyFloat "11.4" = some (11.4 : Rat) ∧ pyFloat "10.2" = some (10.2 : Rat) :=
  version_value_is_decimal_parse envDemo "carisbatch.exe" "HIPS" "bin"
    "C:\\CARIS\\HIPS114" "C:\\CARIS\\HIPS102" rfl (by decide) (by decide)
    (by decide) (by decide)

/-- C10: if a version string resolves (registry node with `install_dir` and
existing executable) but does not parse as a decimal number, the resolver
raises the uncaught `ValueError` from `float()` — in either mode — rather
than skipping the version or returning a result. -/
theorem unparseable_resolvable_version_raises (env : Env) (e k s : String)
    (pre post : List String) (v d : String) (g : Bool)
    (hc : env.connectOK = true)
    (hpre : ∀ u ∈ pre, resolves env e k s u = false)
    (hd : env.install_dir (registry_path k v) = some d)
    (hex : env.path_exists (os_path_join d s e) = true)
    (hparse : pyFloat v = none) :
    caris_command_finder env e (pre ++ v :: post) k g s = .error .valueError := by
  rw [caris_command_finder, if_pos hc,
    caris_find_loop_skip_unresolved env e k s g pre (v :: post) hpre,
    caris_find_loop, hd]
  simp [hex, hparse]

/-- Witness for C10: "11.4.1" is registered and its executable exists in
`envBad`, but `float("11.4.1")` fails, so the resolver raises. -/
theorem unparseable_resolvable_version_raises_witness :
    caris_command_finder envBad "carisbatch.exe" ["11.4.1"] "HIPS" false "bin" =
      .error .valueError :=
  unparseable_resolvable_version_raises envBad "carisbatch.exe" "HIPS" "bin" [] []
    "11.4.1" "C:\\CARIS\\HIPSX" false rfl (by simp) (by decide) (by decide) pyFloat_11_4_1

/-- C3: `command_finder_hips` and `command_finder_base` raise the domain
error carrying the product name ("HIPS" / "BASE Editor") exactly when the
underlying resolver's result is empty (the empty list in collect-all mode or
the empty-placeholder pair in first-match mode); when the resolver returns a
nonempty result they pass it through unchanged, and whenever the registry is
reachable and at least one version of the family list resolves they return a
result and never raise. -/
theorem wrappers_raise_iff_resolver_empty (env : Env) (g : Bool) :
    (((command_finder_hips env g = .error (.exception HIPS_NOT_FOUND_MSG)) ↔
      (caris_command_finder env "carisbatch.exe" HIPS_VERSIONS HIPS_NAME g "bin" =
          .ok (.all []) ∨
       caris_command_finder env "carisbatch.exe" HIPS_VERSIONS HIPS_NAME g "bin" =
          .ok (.first none)))
    ∧ (∀ r, caris_command_finder env "carisbatch.exe" HIPS_VERSIONS HIPS_NAME g "bin" = .ok r →
        r ≠ .all [] → r ≠ .first none → command_finder_hips env g = .ok r)
    ∧ (env.connectOK = true →
        (∃ v ∈ HIPS_VERSIONS, resolves env "carisbatch.exe" HIPS_NAME "bin" v = true) →
        ∃ r, command_finder_hips env g = .ok r)
    ∧ containsStr HIPS_NOT_FOUND_MSG "HIPS" = true)
    ∧ (((command_finder_base env g = .error (.exception BASE_NOT_FOUND_MSG)) ↔
      (caris_command_finder env "carisbatch.exe" BASE_EDITOR_VERSIONS BASE_EDITOR_NAME g "bin" =
          .ok (.all []) ∨
       caris_command_finder env "carisbatch.exe" BASE_EDITOR_VERSIONS BASE_EDITOR_NAME g "bin" =
          .ok (.first none)))
    ∧ (∀ r, caris_command_finder env "carisbatch.exe" BASE_EDITOR_VERSIONS BASE_EDITOR_NAME
          g "bin" = .ok r →
        r ≠ .all [] → r ≠ .first none → command_finder_base env g = .ok r)
    ∧ (env.connectOK = true →
        (∃ v ∈ BASE_EDITOR_VERSIONS, resolves env "carisbatch.exe" BASE_EDITOR_NAME "bin" v =
          true) →
        ∃ r, command_finder_base env g = .ok r)
    ∧ containsStr BASE_NOT_FOUND_MSG "BASE Editor" = true) := by
  constructor
  · have h := wrapper_spec env g "carisbatch.exe" HIPS_NAME HIPS_NOT_FOUND_MSG HIPS_VERSIONS
      (by decide)
    exact ⟨h.1, h.2.1, h.2.2, by decide⟩
  · have h := wrapper_spec env g "carisbatch.exe" BASE_EDITOR_NAME BASE_NOT_FOUND_MSG
      BASE_EDITOR_VERSIONS (by decide)
    exact ⟨h.1, h.2.1, h.2.2, by decide⟩

/-- Witness for C3: with nothing installed both wrappers raise their
product-named error; in `envDemo`, where a HIPS version resolves, the HIPS
wrapper returns a result and does not raise. -/
theorem wrappers_raise_iff_resolver_empty_witness :
    command_finder_hips envNone false = .error (.exception HIPS_NOT_FOUND_MSG) ∧
    command_finder_base envNone false = .error (.exception BASE_NOT_FOUND_MSG) ∧
    (∃ r, command_finder_hips envDemo false = .ok r) := by
  refine ⟨?_, ?_, ?_⟩
  · exact ((wrappers_raise_iff_resolver_empty envNone false).1.1).mpr (Or.inr (by rfl))
  · exact ((wrappers_raise_iff_resolver_empty envNone false).2.1).mpr (Or.inr (by rfl))
  · exact (wrappers_raise_iff_resolver_empty envDemo false).1.2.2.1 rfl
      ⟨"11.4", by decide, by decide⟩

/-- C4 (code bug): `get_hips_command_from_version` is meant to raise an error
naming the requested version, but the tuple unpacking
`batch_engine, vers = caris_command_finder(...)` rebinds `vers` to the empty
placeholder `''` before the message is formatted, so for the failing input
`vers = "11.4"` with no installation present the raised message interpolates
the empty string (note the two adjacent spaces) and does not contain "11.4". -/
theorem get_hips_version_message_drops_version :
    get_hips_command_from_version envNone "11.4" =
      .error (.exception "No Batch Engine found...is CARIS HIPS and SIPS  installed?") ∧
    containsStr "No Batch Engine found...is CARIS HIPS and SIPS  installed?" "11.4" = false := by
  constructor
  · rfl
  · decide
